import Mathlib

/-!
Shallow embedding of the mye-r media pipeline core: the torrentio candidate
ranking engine (internal/scraper/torrentio.go), the Real-Debrid downloader
selection loop (internal/downloader/downloader.go), the retry/backoff base
processor, the daily new-episode rescan (internal/manager/manager.go), and
the filesize configuration validator.

Modelling conventions: Go float64 sizes are modelled as exact rationals;
Go int as Lean Int (Nat where the source value is always a count);
database/sql Null types as Option; time.Time instants as Int (comparisons
are all the source uses); network and database effects are made explicit
as returned values or effect lists.  String scanning helpers mirror the
Go standard library functions the source calls.
-/

set_option linter.unusedVariables false

namespace MyeR

/-- Helper for strContains: does the pattern occur in the character list. -/
def hasSubAux : List Char → List Char → Bool
  | [], pat => pat.isEmpty
  | c :: rest, pat => pat.isPrefixOf (c :: rest) || hasSubAux rest pat

/-- Go strings.Contains. -/
def strContains (s pat : String) : Bool := hasSubAux s.data pat.data

/-- Go strings.ToLower (the source only lowercases ASCII release tags). -/
def lowerStr (s : String) : String := ⟨s.data.map Char.toLower⟩

/-- Go strings.ToUpper (the source only uppercases ASCII uploader tags). -/
def upperStr (s : String) : String := ⟨s.data.map Char.toUpper⟩

def isSpaceChar (c : Char) : Bool := c = ' ' || c = '\t' || c = '\n' || c = '\r'

/-- Go strings.TrimSpace. -/
def trimList (l : List Char) : List Char :=
  ((l.dropWhile isSpaceChar).reverse.dropWhile isSpaceChar).reverse

def trimStr (s : String) : String := ⟨trimList s.data⟩

/-- Helper for splitOnStr: split a character list at each occurrence of the
non-empty separator.  The fuel argument (instantiated with the input
length, an upper bound on the steps taken since every step consumes at
least one character) keeps the recursion structural. -/
def splitOnFuel (sep : List Char) : Nat → List Char → List Char → List (List Char)
  | _, [], acc => [acc.reverse]
  | 0, l, acc => [acc.reverse ++ l]
  | fuel + 1, c :: rest, acc =>
    if sep.isPrefixOf (c :: rest) then
      acc.reverse :: splitOnFuel sep fuel (rest.drop (sep.length - 1)) []
    else
      splitOnFuel sep fuel rest (c :: acc)

/-- Go strings.Split with a non-empty separator (the source always splits on
a fixed non-empty literal; the empty-separator case is unused). -/
def splitOnStr (s sep : String) : List String :=
  match sep.data with
  | [] => [s]
  | c :: cs => (splitOnFuel (c :: cs) s.data.length s.data []).map (fun l => ⟨l⟩)

def digitsToNat (l : List Char) : Nat :=
  l.foldl (fun a c => a * 10 + (c.toNat - 48)) 0

/-- Go strconv.Atoi with the error ignored, as the scraper calls it: the
result defaults to 0 when the token is not a plain digit string (the
release-title tokens the source feeds it carry no sign). -/
def atoiOrZero (s : String) : Nat :=
  if s.data ≠ [] && s.data.all Char.isDigit then digitsToNat s.data else 0

/-- Go strings.Split(s, " ")[0]. -/
def firstSpaceToken (s : String) : String := ⟨s.data.takeWhile (fun c => c ≠ ' ')⟩

/-- Go fmt.Sprintf with a %02d verb. -/
def pad2 (n : Nat) : String := if n < 10 then "0" ++ toString n else toString n

/-- Source isRegionalIndicator: a Unicode regional indicator symbol. -/
def isRegionalIndicator (c : Char) : Bool :=
  0x1F1E6 ≤ c.toNat && c.toNat ≤ 0x1F1FF

/-- Helper for parseLanguages: walk the runes, decoding each adjacent pair of
regional indicator symbols to a two-letter country code. -/
def parseLanguagesAux : List Char → List String
  | c1 :: c2 :: rest =>
    if isRegionalIndicator c1 && isRegionalIndicator c2 then
      String.mk [Char.ofNat (c1.toNat - 0x1F1E6 + 65), Char.ofNat (c2.toNat - 0x1F1E6 + 65)]
        :: parseLanguagesAux rest
    else
      parseLanguagesAux (c2 :: rest)
  | _ => []

/-- Source parseLanguages. -/
def parseLanguages (s : String) : List String := parseLanguagesAux s.data

section SortByR

variable {α : Type} (r : α → α → Bool)

/-- Insert an element into a list sorted by the relation r. -/
def insertByR (x : α) : List α → List α
  | [] => [x]
  | y :: ys => if r x y then x :: y :: ys else y :: insertByR x ys

/-- Deterministic comparison sort modelling Go sort.Slice with the given
less-or-equal relation. -/
def sortByR : List α → List α
  | [] => []
  | x :: xs => insertByR r x (sortByR xs)

theorem insertByR_perm (x : α) (l : List α) : (insertByR r x l).Perm (x :: l) := by
  induction l with
  | nil => simp [insertByR]
  | cons y ys ih =>
    simp only [insertByR]
    by_cases h : r x y
    · simp [h]
    · simp only [h, if_false]
      exact (ih.cons y).trans (List.Perm.swap x y ys)

theorem sortByR_perm (l : List α) : (sortByR r l).Perm l := by
  induction l with
  | nil => simp [sortByR]
  | cons x xs ih =>
    exact (insertByR_perm r x (sortByR r xs)).trans (ih.cons x)

theorem mem_sortByR {a : α} {l : List α} : a ∈ sortByR r l ↔ a ∈ l :=
  (sortByR_perm r l).mem_iff

theorem length_sortByR (l : List α) : (sortByR r l).length = l.length :=
  (sortByR_perm r l).length_eq

theorem pairwise_insertByR
    (htrans : ∀ a b c, r a b = true → r b c = true → r a c = true)
    (htot : ∀ a b, r a b = true ∨ r b a = true)
    (x : α) (l : List α) (hl : l.Pairwise (fun a b => r a b = true)) :
    (insertByR r x l).Pairwise (fun a b => r a b = true) := by
  induction l with
  | nil => simp [insertByR]
  | cons y ys ih =>
    rcases List.pairwise_cons.mp hl with ⟨hy, hys⟩
    simp only [insertByR]
    by_cases h : r x y
    · simp only [h, if_true]
      refine List.pairwise_cons.mpr ⟨?_, hl⟩
      intro b hb
      rcases List.mem_cons.mp hb with hb | hb
      · subst hb; exact h
      · exact htrans x y b h (hy b hb)
    · simp only [h, if_false]
      refine List.pairwise_cons.mpr ⟨?_, ih hys⟩
      intro b hb
      rcases List.mem_cons.mp ((insertByR_perm r x ys).mem_iff.mp hb) with hb | hb
      · rw [hb]
        rcases htot x y with hxy | hyx
        · exact absurd hxy h
        · exact hyx
      · exact hy b hb

theorem pairwise_sortByR
    (htrans : ∀ a b c, r a b = true → r b c = true → r a c = true)
    (htot : ∀ a b, r a b = true ∨ r b a = true)
    (l : List α) : (sortByR r l).Pairwise (fun a b => r a b = true) := by
  induction l with
  | nil => simp [sortByR]
  | cons x xs ih => exact pairwise_insertByR r htrans htot x (sortByR r xs) ih

/-- The head of the sorted list is related to every element of the input. -/
theorem sortByR_head_rel
    (htrans : ∀ a b c, r a b = true → r b c = true → r a c = true)
    (htot : ∀ a b, r a b = true ∨ r b a = true)
    (hrefl : ∀ a, r a a = true)
    {l : List α} {a : α} {tl : List α}
    (h : sortByR r l = a :: tl) : ∀ b ∈ l, r a b = true := by
  intro b hb
  have hmem : b ∈ a :: tl := by
    rw [← h]; exact (mem_sortByR r).mpr hb
  rcases List.mem_cons.mp hmem with hba | hbtl
  · subst hba; exact hrefl b
  · have hp := pairwise_sortByR r htrans htot l
    rw [h] at hp
    exact (List.pairwise_cons.mp hp).1 b hbtl

/-- The head of the sorted list is an element of the input. -/
theorem sortByR_head_mem {l : List α} {a : α} {tl : List α}
    (h : sortByR r l = a :: tl) : a ∈ l := by
  have : a ∈ sortByR r l := by rw [h]; exact List.mem_cons_self a tl
  exact (mem_sortByR r).mp this

end SortByR

/-! Data model (internal/scraper/torrentio.go, internal/database). -/

/-- Size string of a stream.  The source keeps sizes as strings such as
"8.00 GB"; parsing failure leaves the empty string.  The embedding keeps
the scanned numeric value and unit, with empty standing for the empty or
unscannable string. -/
inductive SizeStr where
  | empty : SizeStr
  | val (v : ℚ) (unit : String) : SizeStr
deriving Repr, DecidableEq

/-- Source convertToGB: convert a size string to gigabytes, returning 0 when
the string is empty, unscannable, or carries an unknown unit. -/
def convertToGB : SizeStr → ℚ
  | .empty => 0
  | .val v u =>
    match upperStr u with
    | "TB" => v * 1024
    | "TIB" => v * 1024
    | "GB" => v
    | "GIB" => v
    | "MB" => v / 1024
    | "MIB" => v / 1024
    | "KB" => v / (1024 * 1024)
    | "KIB" => v / (1024 * 1024)
    | _ => 0

/-- Metadata embedded in the second line of a torrentio stream title
(seed count, file size, source tag).  The emoji-delimited byte scanning of
that line is abstracted into these already-extracted fields. -/
structure StreamMeta where
  seeds : Int := 0
  fileSize : SizeStr := .empty
  sourceTag : String := ""
deriving Repr, DecidableEq

structure BehaviorHints where
  bingeGroup : String := ""
  filename : String := ""
deriving Repr, DecidableEq

structure ParsedInfo where
  resolution : String := ""
  codec : String := ""
  fileSize : SizeStr := .empty
  seeds : Int := 0
  sourceTag : String := ""
  title : String := ""
  languages : List String := []
  sizeScore : Int := 0
  season : Nat := 0
  episodeCount : Nat := 0
deriving Repr, DecidableEq

@[ext] structure Stream where
  name : String := ""
  title : String := ""
  infoHash : String := ""
  fileIdx : Int := 0
  behaviorHints : BehaviorHints := {}
  metaLine : StreamMeta := {}
  parsedInfo : ParsedInfo := {}
  score : Int := 0
deriving Repr, DecidableEq

/-- The raw (immutable) part of a stream: every field except the parsed info
and score that the ranking engine itself overwrites. -/
structure RawStream where
  name : String
  title : String
  infoHash : String
  fileIdx : Int
  behaviorHints : BehaviorHints
  metaLine : StreamMeta
deriving Repr, DecidableEq

def rawOf (s : Stream) : RawStream :=
  ⟨s.name, s.title, s.infoHash, s.fileIdx, s.behaviorHints, s.metaLine⟩

structure WatchlistItem where
  id : Nat := 0
  title : String := ""
  mediaType : Option String := none
  imdbId : Option String := none
  tmdbId : Option String := none
  status : Option String := none
  currentStep : Option String := none
  customLibrary : Option String := none
  lastScrapedDate : Option Int := none
deriving Repr, DecidableEq

structure Episode where
  id : Nat := 0
  seasonId : Nat := 0
  episodeNumber : Nat := 0
  airDate : Option Int := none
  scraped : Bool := false
  scrapeResultId : Option Nat := none
deriving Repr, DecidableEq

structure Season where
  id : Nat := 0
  seasonNumber : Nat := 0
  episodeCount : Nat := 0
deriving Repr, DecidableEq

structure ScrapeResult where
  id : Nat := 0
  watchlistItemId : Nat := 0
  scrapedFilename : Option String := none
  scrapedResolution : Option String := none
  infoHash : Option String := none
  scrapedScore : Option Int := none
  scrapedFileSize : Option SizeStr := none
  scrapedCodec : Option String := none
  statusResults : Option String := none
deriving Repr, DecidableEq

/-! Configuration surface (internal/config). -/

structure ScoringConfig where
  resolutionScores : String → Int
  codecScores : String → Int
  maxSeederScore : Int
  preferredUploaderScore : Int
  languageIncludeScore : Int
  languageExcludePenalty : Int
  maxSizeScore : Nat

structure LanguagesConfig where
  includeLangs : List String
  excludeLangs : List String

structure SizeLimits where
  min : ℚ
  max : ℚ
  sizeUnit : String

structure FilesizeConfig where
  movie : SizeLimits
  tvShow : SizeLimits

structure ScrapingConfig where
  scoring : ScoringConfig
  languages : LanguagesConfig
  filesize : FilesizeConfig
  preferredUploaders : List String

/-- Source validateFilesizeConfig: returns the first violated constraint as
an error message, or none when the configuration is valid. -/
def validateFilesizeConfig (f : FilesizeConfig) : Option String :=
  if f.movie.sizeUnit ≠ "GB" then some "movie size_unit must be GB"
  else if f.movie.min ≤ 0 then some "movie min size must be greater than 0"
  else if f.movie.max ≤ f.movie.min then some "movie max size must be greater than min size"
  else if f.tvShow.sizeUnit ≠ "GB" then some "show size_unit must be GB"
  else if f.tvShow.min ≤ 0 then some "show min size must be greater than 0"
  else if f.tvShow.max ≤ f.tvShow.min then some "show max size must be greater than min size"
  else none

/-! Title parsing (source parseStreamInfo and helpers). -/

/-- First needle contained in the haystack, or the empty string; models the
for-and-break detection loops of parseStreamInfo. -/
def firstContained (hay : String) (needles : List String) : String :=
  match needles.find? (fun pat => strContains hay pat) with
  | some p => p
  | none => ""

/-- Number following a keyword in the lowercased title: the segment after the
first occurrence of the keyword, its first space-separated token, then
TrimSpace, then Atoi (0 on failure) — in exactly that order, as in the
season and complete parsing of parseStreamInfo.  In particular a space
between the keyword and the number makes the token empty and the parse
yield 0. -/
def numberAfterKeyword (titleLower keyword : String) : Nat :=
  atoiOrZero (trimStr (firstSpaceToken ((splitOnStr titleLower keyword).getD 1 "")))

/-- Source parseStreamInfo.  The first line of the multi-line title is the
release name; the second line is the metadata (abstracted into StreamMeta:
the source only keeps a size whose scanned value is positive and whose
unit token contains GB); the third line holds language flags. -/
def parseStreamInfo (title : String) (m : StreamMeta) : ParsedInfo :=
  let parts := splitOnStr title "\n"
  let t0 := trimStr (parts.getD 0 "")
  let fs := match m.fileSize with
    | .val v u => if 0 < v && strContains (upperStr u) "GB" then SizeStr.val v "GB" else .empty
    | .empty => .empty
  let langs := if parts.length > 2 then parseLanguages (parts.getD 2 "") else []
  let tl := lowerStr t0
  let res := firstContained tl ["2160p", "1080p", "720p", "480p", "4k"]
  let codec := firstContained tl ["x265", "hevc", "h265", "x264", "avc", "h264"]
  let sn :=
    if strContains tl "season" || strContains tl "complete" then
      if strContains tl "season" then numberAfterKeyword tl "season" else 0
    else 0
  let ec :=
    if strContains tl "season" || strContains tl "complete" then
      if strContains tl "complete" then numberAfterKeyword tl "complete" else 0
    else 0
  { resolution := res, codec := codec, fileSize := fs, seeds := m.seeds,
    sourceTag := m.sourceTag, title := t0, languages := langs,
    sizeScore := 0, season := sn, episodeCount := ec }

/-! Scoring (source calculateBaseScore, calculateScore, hasPreferredUploader). -/

/-- Source hasPreferredUploader: uppercase title contains an uploader tag from
a comma-separated group, tolerant of dash, dot and bracket separators. -/
def hasPreferredUploader (cfg : ScrapingConfig) (title : String) : Bool :=
  let t := upperStr title
  cfg.preferredUploaders.any (fun group =>
    (splitOnStr group ",").any (fun u =>
      let u := trimStr (upperStr u)
      [u, "-" ++ u, "." ++ u, "[" ++ u ++ "]"].any (fun term => strContains t term)))

def resolutionScoreOf (cfg : ScrapingConfig) (resolution : String) : Int :=
  if resolution = "2160p" || resolution = "4k" then cfg.scoring.resolutionScores "2160p"
  else if resolution = "1080p" then cfg.scoring.resolutionScores "1080p"
  else if resolution = "720p" then cfg.scoring.resolutionScores "720p"
  else if resolution = "480p" then cfg.scoring.resolutionScores "480p"
  else 0

def codecScoreOf (cfg : ScrapingConfig) (codec : String) : Int :=
  if codec = "x265" || codec = "HEVC" || codec = "h265" then cfg.scoring.codecScores "hevc"
  else if codec = "x264" || codec = "AVC" || codec = "h264" then cfg.scoring.codecScores "avc"
  else 0

/-- Source language scoring loops: each parsed language adds the include
score per matching include tag and the (negative) exclude penalty per
matching exclude tag. -/
def langScoreFor (cfg : ScrapingConfig) (langs : List String) : Int :=
  langs.foldl (fun acc lang =>
    let acc2 := cfg.languages.includeLangs.foldl
      (fun a il => if lang = il then a + cfg.scoring.languageIncludeScore else a) acc
    cfg.languages.excludeLangs.foldl
      (fun a el => if lang = el then a + cfg.scoring.languageExcludePenalty else a) acc2) 0

/-- Source calculateBaseScore: resolution + codec + capped seeders +
preferred-uploader bonus + language score. -/
def calculateBaseScore (cfg : ScrapingConfig) (s : Stream) : Int :=
  let sc1 := resolutionScoreOf cfg s.parsedInfo.resolution + codecScoreOf cfg s.parsedInfo.codec
  let seedScore := if s.parsedInfo.seeds > cfg.scoring.maxSeederScore
    then cfg.scoring.maxSeederScore else s.parsedInfo.seeds
  let sc2 := sc1 + seedScore
  let sc3 := if hasPreferredUploader cfg s.title then sc2 + cfg.scoring.preferredUploaderScore else sc2
  sc3 + langScoreFor cfg s.parsedInfo.languages

/-- Source calculateScore: base score plus the size-proximity bonus. -/
def calculateScore (cfg : ScrapingConfig) (s : Stream) : Int :=
  calculateBaseScore cfg s + s.parsedInfo.sizeScore

/-! Ranking pipeline (source processStreams). -/

/-- First step of processStreams: fill ParsedInfo from the title and compute
the score. -/
def parseAndScore (cfg : ScrapingConfig) (s : Stream) : Stream :=
  let s2 : Stream := { s with parsedInfo := parseStreamInfo s.title s.metaLine }
  { s2 with score := calculateScore cfg s2 }

/-- Comparison used by the size sort of processStreams (largest first). -/
def sizeDesc (a b : Stream) : Bool :=
  decide (convertToGB b.parsedInfo.fileSize ≤ convertToGB a.parsedInfo.fileSize)

/-- Comparison used by every score sort of the scraper (highest first). -/
def scoreDesc (a b : Stream) : Bool := decide (b.score ≤ a.score)

def resetSizeScore (s : Stream) : Stream :=
  { s with parsedInfo := { s.parsedInfo with sizeScore := 0 } }

def setSizeScore (s : Stream) (v : Int) : Stream :=
  { s with parsedInfo := { s.parsedInfo with sizeScore := v } }

/-- Tiered size bonuses of processStreams: 100 percent of the configured
max-size-score for the stream closest to the maximum, then 80 and 60
percent (integer truncation as in the Go int conversion). -/
def tierBonus (m : Nat) : Nat → Nat
  | 0 => m
  | 1 => m * 8 / 10
  | 2 => m * 6 / 10
  | _ + 3 => 0

/-- Does the stream size qualify for a size bonus (at or under the max). -/
def qualifiesB (maxSize : ℚ) (s : Stream) : Bool :=
  decide (convertToGB s.parsedInfo.fileSize ≤ maxSize)

/-- Bonus assignment of processStreams: walking the size-sorted list, the
first three streams at or under the max size receive the tiered bonuses;
every other stream is passed through unchanged. -/
def assignSizeScores (maxSize : ℚ) (m : Nat) : List Stream → Nat → List Stream
  | [], _ => []
  | s :: rest, k =>
    if qualifiesB maxSize s && decide (k < 3) then
      setSizeScore s (tierBonus m k) :: assignSizeScores maxSize m rest (k + 1)
    else
      s :: assignSizeScores maxSize m rest k

/-- Number of qualifying streams strictly before position i. -/
def rankQual (maxSize : ℚ) : List Stream → Nat → Nat
  | _, 0 => 0
  | [], _ + 1 => 0
  | s :: rest, i + 1 => (if qualifiesB maxSize s then 1 else 0) + rankQual maxSize rest i

/-- Final rescoring step of processStreams: total = base + size bonus. -/
def rescore (cfg : ScrapingConfig) (s : Stream) : Stream :=
  { s with score := calculateBaseScore cfg s + s.parsedInfo.sizeScore }

/-- Max-size pick of processStreams: show limit when the title of the first
sorted stream contains the word show, movie limit otherwise. -/
def getMaxSizeFor (cfg : ScrapingConfig) : List Stream → ℚ
  | [] => cfg.filesize.movie.max
  | s :: _ =>
    if strContains (lowerStr s.title) "show" then cfg.filesize.tvShow.max
    else cfg.filesize.movie.max

/-- Source filterStreams: size filter (configured min and max for the media
type) and optional preferred-uploader filter. -/
def filterStreams (cfg : ScrapingConfig) (item : WatchlistItem) (streams : List Stream)
    (useSize useUploader : Bool) : List Stream :=
  let limits := if item.mediaType = some "show" then cfg.filesize.tvShow else cfg.filesize.movie
  streams.filter (fun s =>
    (if useSize then
      decide (limits.min ≤ convertToGB s.parsedInfo.fileSize) &&
        decide (convertToGB s.parsedInfo.fileSize ≤ limits.max)
     else true)
    && (if useUploader then hasPreferredUploader cfg s.title else true))

/-- Stages 1 to 5 of processStreams: parse and score, sort by size
descending, reset size bonuses, assign tiered bonuses, recompute totals. -/
def processStreamsPipeline (cfg : ScrapingConfig) (streams : List Stream) : List Stream :=
  let parsed := streams.map (parseAndScore cfg)
  let sorted := sortByR sizeDesc parsed
  let reset := sorted.map resetSizeScore
  let assigned := assignSizeScores (getMaxSizeFor cfg reset) cfg.scoring.maxSizeScore reset 0
  assigned.map (rescore cfg)

/-- Filter stage of processStreams: size filter first, falling back to the
unfiltered list when the filter removes everything. -/
def filterOrFallback (cfg : ScrapingConfig) (item : WatchlistItem) (L : List Stream) : List Stream :=
  let filtered := filterStreams cfg item L true false
  if filtered.isEmpty then filterStreams cfg item L false false else filtered

/-- Selection stage of processStreams: sort the filtered streams by score
descending and take the first. -/
def selectFromProcessed (cfg : ScrapingConfig) (item : WatchlistItem) (L : List Stream) :
    Option Stream :=
  (sortByR scoreDesc (filterOrFallback cfg item L)).head?

/-- Source processStreams, as the selection it makes: none models the
no-streams-found error. -/
def processStreamsSelect (cfg : ScrapingConfig) (item : WatchlistItem)
    (streams : List Stream) : Option Stream :=
  match streams with
  | [] => none
  | _ :: _ => selectFromProcessed cfg item (processStreamsPipeline cfg streams)

/-- Scrape result saved by processStreams for the best match. -/
def mkMovieScrapeResult (item : WatchlistItem) (best : Stream) : ScrapeResult :=
  { watchlistItemId := item.id,
    scrapedFilename := some best.parsedInfo.title,
    scrapedResolution := some best.parsedInfo.resolution,
    infoHash := some best.infoHash,
    scrapedScore := some best.score,
    scrapedFileSize := some best.parsedInfo.fileSize,
    scrapedCodec := some best.parsedInfo.codec,
    statusResults := some "ready_for_download" }

/-- Source processStreams end to end: the saved scrape result, none on the
error paths. -/
def processStreamsRun (cfg : ScrapingConfig) (item : WatchlistItem)
    (streams : List Stream) : Option ScrapeResult :=
  (processStreamsSelect cfg item streams).map (mkMovieScrapeResult item)

/-- Movie path of source Scrape: streams whose info hash equals the hash
already stored for the item are removed before processStreams runs (the
blacklist step); an empty remainder is the no-valid-streams error. -/
def scrapeMovieSelect (cfg : ScrapingConfig) (item : WatchlistItem)
    (existingHash : String) (streams : List Stream) : Option Stream :=
  processStreamsSelect cfg item (streams.filter (fun s => decide (s.infoHash ≠ existingHash)))

/-! TV scraping (source scrapeTVShow, scrapeIndividualEpisodes,
filterSeasonPackStreams, processSeasonPack of internal/scraper/torrentio.go). -/

/-- Episode tag such as S01E02 built with fmt.Sprintf S%02dE%02d. -/
def epPattern (sn en : Nat) : String := "S" ++ pad2 sn ++ "E" ++ pad2 en

/-- Is the air date of the episode valid and strictly in the future (Go
episode.AirDate.Valid and AirDate.Time.After(now)). -/
def airDateFuture (now : Int) (ep : Episode) : Bool :=
  ep.airDate.any (fun d => decide (now < d))

/-- One episode iteration of source scrapeTVShow: skip future or already
scraped episodes; otherwise collect the show streams whose title contains
the SxxEyy tag, parse and score them, sort by score descending, and save
the best as a scrape result (status scraped), marking the episode scraped
and pointing it at the new result id.  Saving is modelled by the returned
result and the next-id counter. -/
def scrapeTVEpisodeStep (cfg : ScrapingConfig) (item : WatchlistItem) (now : Int)
    (showStreams : List Stream) (sn : Nat) (ep : Episode) (nextId : Nat) :
    Episode × Option ScrapeResult × Nat :=
  if airDateFuture now ep then (ep, none, nextId)
  else if ep.scraped then (ep, none, nextId)
  else
    let epStreams := (showStreams.filter
      (fun s => strContains s.title (epPattern sn ep.episodeNumber))).map (parseAndScore cfg)
    match sortByR scoreDesc epStreams with
    | [] => (ep, none, nextId)
    | best :: _ =>
      let result : ScrapeResult :=
        { id := nextId,
          watchlistItemId := item.id,
          scrapedFilename := some best.behaviorHints.filename,
          scrapedResolution := some best.parsedInfo.resolution,
          infoHash := some best.infoHash,
          scrapedScore := some best.score,
          scrapedCodec := some best.parsedInfo.codec,
          statusResults := some "scraped" }
      ({ ep with scrapeResultId := some nextId, scraped := true }, some result, nextId + 1)

/-- Source scrapeTVShow, per-episode loop over all seasons: each list entry
pairs an episode with its season number; results accumulate with fresh
ids. -/
def scrapeTVShowRun (cfg : ScrapingConfig) (item : WatchlistItem) (now : Int)
    (showStreams : List Stream) :
    List (Nat × Episode) → Nat → List Episode × List ScrapeResult
  | [], _ => ([], [])
  | (sn, ep) :: rest, nextId =>
    let step := scrapeTVEpisodeStep cfg item now showStreams sn ep nextId
    let tail := scrapeTVShowRun cfg item now showStreams rest step.2.2
    (step.1 :: tail.1, step.2.1.toList ++ tail.2)

/-- One episode iteration of source scrapeIndividualEpisodes: the same
future and already-scraped skips, then the per-episode query response is
sorted by score and the best saved with status pending_download. -/
def scrapeIndividualEpisodeStep (item : WatchlistItem) (now : Int)
    (respStreams : List Stream) (ep : Episode) (nextId : Nat) :
    Episode × Option ScrapeResult × Nat :=
  if airDateFuture now ep then (ep, none, nextId)
  else if ep.scraped then (ep, none, nextId)
  else
    match sortByR scoreDesc respStreams with
    | [] => (ep, none, nextId)
    | best :: _ =>
      let result : ScrapeResult :=
        { id := nextId,
          watchlistItemId := item.id,
          scrapedFilename := some best.behaviorHints.filename,
          scrapedResolution := some best.parsedInfo.resolution,
          infoHash := some best.infoHash,
          scrapedScore := some best.score,
          scrapedCodec := some best.parsedInfo.codec,
          statusResults := some "pending_download" }
      ({ ep with scrapeResultId := some nextId, scraped := true }, some result, nextId + 1)

/-- Source filterSeasonPackStreams (internal scraper): keep the streams whose
parsed season equals the season number and whose parsed episode count
equals the expected count, sorted by score descending. -/
def filterSeasonPackStreams (streams : List Stream) (seasonNumber expectedEpisodeCount : Nat) :
    List Stream :=
  sortByR scoreDesc (streams.filter (fun s =>
    decide (s.parsedInfo.season = seasonNumber)
      && decide (s.parsedInfo.episodeCount = expectedEpisodeCount)))

/-- Source processSeasonPack (internal scraper): save one scrape result for
the season pack and point every episode of the season at that single
result, marking each scraped. -/
def processSeasonPack (stream : Stream) (item : WatchlistItem) (episodes : List Episode)
    (nextId : Nat) : ScrapeResult × List Episode :=
  ({ id := nextId,
     watchlistItemId := item.id,
     scrapedFilename := some stream.behaviorHints.filename,
     scrapedResolution := some stream.parsedInfo.resolution,
     infoHash := some stream.infoHash,
     scrapedScore := some stream.score,
     scrapedCodec := some stream.parsedInfo.codec,
     statusResults := some "ready_for_download" },
   episodes.map (fun ep => { ep with scrapeResultId := some nextId, scraped := true }))

/-! Retry handling (BaseProcessor of the internal process manager). -/

structure RetryState where
  count : Nat := 0
  status : String := "new"
deriving Repr, DecidableEq

/-- Source handleRetry: increment the per-item retry count; once it reaches
maxRetries the item status is set to failed, a reset is scheduled, and
false (stop retrying) is returned. -/
def handleRetry (maxRetries : Nat) (st : RetryState) : RetryState × Bool :=
  let c := st.count + 1
  if maxRetries ≤ c then ({ count := c, status := "failed" }, false)
  else ({ st with count := c }, true)

/-- Source scheduleRetryReset after its wait: the in-memory retry count is
deleted (so it reads as zero) and the item status is set back to new. -/
def scheduleRetryReset (st : RetryState) : RetryState :=
  { count := 0, status := "new" }

/-- Source getMaxRetries: the configured default when positive, else 3. -/
def getMaxRetries (defaultMaxRetries : Int) : Int :=
  if defaultMaxRetries > 0 then defaultMaxRetries else 3

/-! Daily rescan (checkForNewEpisodes of internal/manager/manager.go). -/

/-- Update applied by source checkForNewEpisodes to each returning series
with unscraped aired episodes: status new, current step indexing_pending,
last scraped date now. -/
def checkForNewEpisodesUpdate (now : Int) (item : WatchlistItem) : WatchlistItem :=
  { item with
    status := some "new",
    currentStep := some "indexing_pending",
    lastScrapedDate := some now }

/-- Source checkForNewEpisodes over the items returned by the
returning-series query. -/
def checkForNewEpisodes (now : Int) (items : List WatchlistItem) : List WatchlistItem :=
  items.map (checkForNewEpisodesUpdate now)

/-! Downloader movie path (Download of internal/downloader/downloader.go). -/

/-- Best-result scan of the movie branch: walk the scrape results keeping
the one with status scraped, a valid score, and a score strictly greater
than the best seen so far (which starts at 0). -/
def bestMovieLoop (results : List ScrapeResult) : Option ScrapeResult × Int :=
  results.foldl (fun acc r =>
    match r.scrapedScore with
    | some sc =>
      if r.statusResults.getD "" = "scraped" && decide (acc.2 < sc) then (some r, sc) else acc
    | none => acc) (none, 0)

/-- External effects of the downloader, in order. -/
inductive DlEffect where
  | addTorrent (infoHash : String)
  | selectFiles
  | getDownloadLink
  | setStatus (status : String)
  | waitForDownload
  | setItemDownloaded
deriving Repr, DecidableEq

/-- Movie branch of source Download: error when there are no scrape results
or when the best score is zero (no positively scored scraped result), in
which case no Real-Debrid call is made and nothing is updated; otherwise
the best result is downloaded through the effect sequence. -/
def downloadMovie (results : List ScrapeResult) : Except String ScrapeResult × List DlEffect :=
  if results.isEmpty then (.error "no scrape results found", [])
  else
    let best := bestMovieLoop results
    if best.2 = 0 then (.error "no valid scrape results found", [])
    else
      match best.1 with
      | some r =>
        (.ok r,
         [.addTorrent (r.infoHash.getD ""), .selectFiles, .getDownloadLink,
          .setStatus "downloading", .waitForDownload, .setItemDownloaded])
      | none => (.error "no valid scrape results found", [])

/-! Shared lemmas about the score order and the filter and selection stages. -/

theorem scoreDesc_trans (a b c : Stream) (h1 : scoreDesc a b = true) (h2 : scoreDesc b c = true) :
    scoreDesc a c = true := by
  simp only [scoreDesc, decide_eq_true_eq] at *
  omega

theorem scoreDesc_total (a b : Stream) : scoreDesc a b = true ∨ scoreDesc b a = true := by
  simp only [scoreDesc, decide_eq_true_eq]
  omega

theorem scoreDesc_refl (a : Stream) : scoreDesc a a = true := by
  simp [scoreDesc]

/-- With both filters off, filterStreams keeps every stream. -/
theorem filterStreams_no_filters (cfg : ScrapingConfig) (item : WatchlistItem)
    (streams : List Stream) : filterStreams cfg item streams false false = streams := by
  simp [filterStreams]

/-- Every stream kept by filterStreams comes from the input. -/
theorem mem_of_mem_filterStreams {cfg : ScrapingConfig} {item : WatchlistItem}
    {streams : List Stream} {useSize useUploader : Bool} {s : Stream}
    (h : s ∈ filterStreams cfg item streams useSize useUploader) : s ∈ streams :=
  (List.mem_filter.mp h).1

/-- Every stream in the filter-or-fallback set comes from the input. -/
theorem mem_of_mem_filterOrFallback {cfg : ScrapingConfig} {item : WatchlistItem}
    {L : List Stream} {s : Stream} (h : s ∈ filterOrFallback cfg item L) : s ∈ L := by
  unfold filterOrFallback at h
  by_cases he : (filterStreams cfg item L true false).isEmpty
  · rw [if_pos he, filterStreams_no_filters] at h; exact h
  · rw [if_neg he] at h; exact mem_of_mem_filterStreams h

/-- A successful selection is a member of the filter-or-fallback set and
scores at least as high as every member of that set. -/
theorem selectFromProcessed_spec {cfg : ScrapingConfig} {item : WatchlistItem}
    {L : List Stream} {s : Stream} (hsel : selectFromProcessed cfg item L = some s) :
    s ∈ filterOrFallback cfg item L ∧ ∀ t ∈ filterOrFallback cfg item L, t.score ≤ s.score := by
  unfold selectFromProcessed at hsel
  cases hsort : sortByR scoreDesc (filterOrFallback cfg item L) with
  | nil => rw [hsort] at hsel; simp at hsel
  | cons a tl =>
    rw [hsort] at hsel
    simp only [List.head?_cons, Option.some.injEq] at hsel
    subst hsel
    constructor
    · exact sortByR_head_mem scoreDesc hsort
    · intro t ht
      have := sortByR_head_rel scoreDesc scoreDesc_trans scoreDesc_total scoreDesc_refl hsort t ht
      simpa [scoreDesc] using this

/-- A successful processStreams selection factors through the pipeline. -/
theorem processStreamsSelect_eq {cfg : ScrapingConfig} {item : WatchlistItem}
    {streams : List Stream} {s : Stream} (hsel : processStreamsSelect cfg item streams = some s) :
    selectFromProcessed cfg item (processStreamsPipeline cfg streams) = some s := by
  cases streams with
  | nil => simp [processStreamsSelect] at hsel
  | cons a tl => simpa [processStreamsSelect] using hsel

/-! C3: retry and terminal-failure discipline. -/

/-- Claim C3 counterexample.  With max_retries = 3, the third call of
handleRetry moves the item to the terminal failed status while the retry
count equals (does not exceed) max_retries; the reset that handleRetry
itself schedules then puts the status back to new and the count back to
zero with no external intervention and no successful stage advance.  This
refutes the claim that terminal failure requires the count to exceed
max_retries, that a terminal item stays excluded until externally reset,
and that the count only decreases on a successful advance. -/
theorem c3_retry_counterexample :
    (handleRetry 3 (handleRetry 3 (handleRetry 3 { count := 0, status := "new" }).1).1).1.status
        = "failed" ∧
    (handleRetry 3 (handleRetry 3 (handleRetry 3 { count := 0, status := "new" }).1).1).1.count
        = 3 ∧
    (scheduleRetryReset
        (handleRetry 3 (handleRetry 3 (handleRetry 3 { count := 0, status := "new" }).1).1).1).status
        = "new" ∧
    (scheduleRetryReset
        (handleRetry 3 (handleRetry 3 (handleRetry 3 { count := 0, status := "new" }).1).1).1).count
        = 0 := by
  decide

/-- Claim C3 as amended: handleRetry always increments the retry count by
one (so the count never decreases across retries); the item becomes
terminally failed exactly when the incremented count reaches (equals or
exceeds) max_retries; below that bound the status is untouched and the
stage retries; and the scheduled reset, not an external operator action,
returns the state to status new with count zero. -/
theorem c3_retry_amended (m : Nat) (st : RetryState) :
    ((handleRetry m st).1.count = st.count + 1) ∧
    (st.count ≤ (handleRetry m st).1.count) ∧
    (m ≤ st.count + 1 →
      (handleRetry m st).1.status = "failed" ∧ (handleRetry m st).2 = false) ∧
    (st.count + 1 < m →
      (handleRetry m st).1.status = st.status ∧ (handleRetry m st).2 = true) ∧
    (scheduleRetryReset (handleRetry m st).1 = { count := 0, status := "new" }) := by
  unfold handleRetry scheduleRetryReset
  by_cases h : m ≤ st.count + 1
  · simp [h]
  · simp [h]

/-- Witness for c3_retry_amended at max_retries 3 and a state with two
failures recorded. -/
theorem c3_retry_amended_witness :
    (handleRetry 3 { count := 2, status := "new" }).1.count = 3 ∧
    (handleRetry 3 { count := 2, status := "new" }).1.status = "failed" := by
  have h := c3_retry_amended 3 { count := 2, status := "new" }
  exact ⟨h.1, (h.2.2.1 (by decide)).1⟩

/-! C6: periodic rescan scope. -/

def c6ItemEx : WatchlistItem :=
  { id := 7, title := "Returning Show", mediaType := some "tv",
    status := some "downloaded", currentStep := some "download_pending" }

/-- Claim C6 counterexample.  The daily rescan update does not leave the
current step of a qualifying item unchanged: an item sitting at the
download step is moved all the way back to indexing_pending with status
new, restarting the pipeline for the whole item rather than re-admitting
only its new episodes into the scrape-eligible set. -/
theorem c6_rescan_counterexample :
    (checkForNewEpisodes 500 [c6ItemEx])[0]? = some (checkForNewEpisodesUpdate 500 c6ItemEx) ∧
    (checkForNewEpisodesUpdate 500 c6ItemEx).currentStep = some "indexing_pending" ∧
    c6ItemEx.currentStep = some "download_pending" ∧
    (checkForNewEpisodesUpdate 500 c6ItemEx).currentStep ≠ c6ItemEx.currentStep := by
  decide

/-- Claim C6 as amended: for every still-airing series item with newly
aired, unscraped episodes found by the daily rescan, the rescan resets the
whole item to status new and current step indexing_pending (stamping the
last-scraped date), sending the item back through indexing rather than
leaving its stage unchanged. -/
theorem c6_rescan_amended (now : Int) (items : List WatchlistItem) :
    ∀ it ∈ checkForNewEpisodes now items,
      it.status = some "new" ∧ it.currentStep = some "indexing_pending"
        ∧ it.lastScrapedDate = some now := by
  intro it hit
  rcases List.mem_map.mp hit with ⟨x, hx, rfl⟩
  exact ⟨rfl, rfl, rfl⟩

/-- Witness for c6_rescan_amended on a concrete rescan batch. -/
theorem c6_rescan_amended_witness :
    (checkForNewEpisodesUpdate 500 c6ItemEx).status = some "new" ∧
    (checkForNewEpisodesUpdate 500 c6ItemEx).currentStep = some "indexing_pending" ∧
    (checkForNewEpisodesUpdate 500 c6ItemEx).lastScrapedDate = some 500 :=
  c6_rescan_amended 500 [c6ItemEx] (checkForNewEpisodesUpdate 500 c6ItemEx)
    (by simp [checkForNewEpisodes])

/-! C7: release-date gating. -/

/-- Claim C7: an episode whose air date is valid and strictly in the future
at scrape time is skipped by both TV scraping paths: the episode record is
returned unchanged (in particular not marked scraped), no scrape result is
created, and the result-id counter does not move.  This holds for the
show-level loop of scrapeTVShow and for scrapeIndividualEpisodes. -/
theorem c7_release_date_gating (cfg : ScrapingConfig) (item : WatchlistItem) (now : Int)
    (showStreams respStreams : List Stream) (sn : Nat) (ep : Episode) (nextId : Nat)
    (d : Int) (hd : ep.airDate = some d) (hfut : now < d) :
    scrapeTVEpisodeStep cfg item now showStreams sn ep nextId = (ep, none, nextId) ∧
    scrapeIndividualEpisodeStep item now respStreams ep nextId = (ep, none, nextId) := by
  have hf : airDateFuture now ep = true := by
    simp [airDateFuture, hd, hfut]
  constructor
  · unfold scrapeTVEpisodeStep
    rw [hf]
    simp
  · unfold scrapeIndividualEpisodeStep
    rw [hf]
    simp

def c7EpisodeEx : Episode :=
  { id := 12, seasonId := 3, episodeNumber := 4, airDate := some 1000, scraped := false }

/-- Witness for c7_release_date_gating: a concrete future episode is left
untouched by both paths. -/
theorem c7_release_date_gating_witness :
    scrapeTVEpisodeStep
        { scoring := { resolutionScores := fun _ => 0, codecScores := fun _ => 0,
                       maxSeederScore := 0, preferredUploaderScore := 0,
                       languageIncludeScore := 0, languageExcludePenalty := 0, maxSizeScore := 0 },
          languages := { includeLangs := [], excludeLangs := [] },
          filesize := { movie := { min := 1, max := 10, sizeUnit := "GB" },
                        tvShow := { min := 1, max := 20, sizeUnit := "GB" } },
          preferredUploaders := [] }
        { id := 1 } 100 [] 3 c7EpisodeEx 9 = (c7EpisodeEx, none, 9) ∧
    scrapeIndividualEpisodeStep { id := 1 } 100 [] c7EpisodeEx 9 = (c7EpisodeEx, none, 9) :=
  c7_release_date_gating _ _ 100 [] [] 3 c7EpisodeEx 9 1000 (by decide) (by decide)

/-! C10: downloader movie-path selection. -/

/-- One step of the bestMovieLoop fold. -/
def bestMovieStep (acc : Option ScrapeResult × Int) (r : ScrapeResult) :
    Option ScrapeResult × Int :=
  match r.scrapedScore with
  | some sc =>
    if r.statusResults.getD "" = "scraped" && decide (acc.2 < sc) then (some r, sc) else acc
  | none => acc

theorem bestMovieLoop_eq_foldl (results : List ScrapeResult) :
    bestMovieLoop results = results.foldl bestMovieStep (none, 0) := rfl

theorem bestMovieStep_some (acc : Option ScrapeResult × Int) (r : ScrapeResult) (sc : Int)
    (h : r.scrapedScore = some sc) :
    bestMovieStep acc r =
      if (decide (r.statusResults.getD "" = "scraped") && decide (acc.2 < sc)) = true
      then (some r, sc) else acc := by
  unfold bestMovieStep
  rw [h]

theorem bestMovieStep_none (acc : Option ScrapeResult × Int) (r : ScrapeResult)
    (h : r.scrapedScore = none) : bestMovieStep acc r = acc := by
  unfold bestMovieStep
  rw [h]

/-- The running best score never decreases across the fold. -/
theorem bestMovieFold_snd_mono :
    ∀ (l : List ScrapeResult) (acc : Option ScrapeResult × Int),
      acc.2 ≤ (l.foldl bestMovieStep acc).2 := by
  intro l
  induction l with
  | nil => intro acc; simp
  | cons a t ih =>
    intro acc
    have hstep : acc.2 ≤ (bestMovieStep acc a).2 := by
      cases hsc : a.scrapedScore with
      | none => rw [bestMovieStep_none acc a hsc]
      | some sc =>
        rw [bestMovieStep_some acc a sc hsc]
        by_cases h : (decide (a.statusResults.getD "" = "scraped") && decide (acc.2 < sc)) = true
        · rw [if_pos h]
          have h2 := h
          simp only [Bool.and_eq_true, decide_eq_true_eq] at h2
          exact le_of_lt h2.2
        · rw [if_neg h]
    calc acc.2 ≤ (bestMovieStep acc a).2 := hstep
      _ ≤ (t.foldl bestMovieStep (bestMovieStep acc a)).2 := ih _

/-- Every scraped result with a valid score never beats the final best
score of the fold. -/
theorem bestMovieFold_ub :
    ∀ (l : List ScrapeResult) (acc : Option ScrapeResult × Int) (t : ScrapeResult),
      t ∈ l → t.statusResults.getD "" = "scraped" →
      ∀ v, t.scrapedScore = some v → v ≤ (l.foldl bestMovieStep acc).2 := by
  intro l
  induction l with
  | nil => intro acc t ht; simp at ht
  | cons a rest ih =>
    intro acc t ht hel v hv
    rcases List.mem_cons.mp ht with rfl | htr
    · have hstep : v ≤ (bestMovieStep acc t).2 := by
        rw [bestMovieStep_some acc t v hv]
        by_cases h : acc.2 < v
        · rw [if_pos (by simp [hel, h])]
        · rw [if_neg (by simp [h])]
          omega
      calc v ≤ (bestMovieStep acc t).2 := hstep
        _ ≤ (rest.foldl bestMovieStep (bestMovieStep acc t)).2 := bestMovieFold_snd_mono _ _
    · exact ih (bestMovieStep acc a) t htr hel v hv

/-- Provenance of the fold result: either the accumulator is returned
unchanged, or the chosen result comes from the list, is scraped, carries
the final score as its valid score, and that score strictly exceeds the
starting best. -/
theorem bestMovieFold_provenance :
    ∀ (l : List ScrapeResult) (acc : Option ScrapeResult × Int),
      l.foldl bestMovieStep acc = acc ∨
      ∃ r ∈ l, (l.foldl bestMovieStep acc).1 = some r ∧
        r.statusResults.getD "" = "scraped" ∧
        r.scrapedScore = some (l.foldl bestMovieStep acc).2 ∧
        acc.2 < (l.foldl bestMovieStep acc).2 := by
  intro l
  induction l with
  | nil => intro acc; left; rfl
  | cons a rest ih =>
    intro acc
    by_cases hup : bestMovieStep acc a = acc
    · rw [List.foldl_cons, hup]
      rcases ih acc with h | ⟨r, hr, h1, h2, h3, h4⟩
      · left; exact h
      · right; exact ⟨r, List.mem_cons_of_mem a hr, h1, h2, h3, h4⟩
    · have hshape : ∃ sc, a.scrapedScore = some sc ∧ a.statusResults.getD "" = "scraped" ∧
          acc.2 < sc ∧ bestMovieStep acc a = (some a, sc) := by
        cases hsc : a.scrapedScore with
        | none => exact absurd (bestMovieStep_none acc a hsc) hup
        | some sc =>
          rw [bestMovieStep_some acc a sc hsc] at hup
          by_cases hcond :
              (decide (a.statusResults.getD "" = "scraped") && decide (acc.2 < sc)) = true
          · have hc2 := hcond
            simp only [Bool.and_eq_true, decide_eq_true_eq] at hc2
            exact ⟨sc, rfl, hc2.1, hc2.2,
              by rw [bestMovieStep_some acc a sc hsc, if_pos hcond]⟩
          · rw [if_neg hcond] at hup
            exact absurd rfl hup
      rcases hshape with ⟨sc, hsc, hel, hlt, hstep⟩
      rw [List.foldl_cons, hstep]
      rcases ih (some a, sc) with h | ⟨r, hr, h1, h2, h3, h4⟩
      · right
        refine ⟨a, List.mem_cons_self a rest, ?_, hel, ?_, ?_⟩
        · rw [h]
        · rw [h]; exact hsc
        · rw [h]; exact hlt
      · right
        refine ⟨r, List.mem_cons_of_mem a hr, h1, h2, h3, ?_⟩
        have : sc ≤ (rest.foldl bestMovieStep (some a, sc)).2 := bestMovieFold_snd_mono _ _
        omega

/-- Claim C10: for a movie item the downloader considers only scrape
results with status scraped and a valid, strictly positive score and
picks one of maximal score; when no result has a strictly positive score
it returns an error with an empty effect list, so the download service is
never contacted and no state is mutated. -/
theorem c10_download_movie_selection (results : List ScrapeResult) :
    (∀ r sc, bestMovieLoop results = (some r, sc) →
      r ∈ results ∧ r.statusResults.getD "" = "scraped" ∧ r.scrapedScore = some sc ∧ 0 < sc ∧
      ∀ t ∈ results, t.statusResults.getD "" = "scraped" →
        ∀ v, t.scrapedScore = some v → v ≤ sc) ∧
    ((∀ t ∈ results, t.statusResults.getD "" = "scraped" →
        ∀ v, t.scrapedScore = some v → v ≤ 0) →
      (∃ msg, (downloadMovie results).1 = Except.error msg) ∧ (downloadMovie results).2 = []) := by
  constructor
  · intro r sc hloop
    rw [bestMovieLoop_eq_foldl] at hloop
    rcases bestMovieFold_provenance results (none, 0) with h | ⟨r2, hr2, h1, h2, h3, h4⟩
    · rw [h] at hloop
      exact absurd (congrArg Prod.fst hloop) (by simp)
    · rw [hloop] at h1 h3 h4
      simp only [Option.some.injEq] at h1
      subst h1
      refine ⟨hr2, h2, h3, h4, ?_⟩
      intro t ht hel v hv
      have := bestMovieFold_ub results (none, 0) t ht hel v hv
      rw [hloop] at this
      exact this
  · intro hall
    have hz : (bestMovieLoop results).2 = 0 := by
      rw [bestMovieLoop_eq_foldl]
      rcases bestMovieFold_provenance results (none, 0) with h | ⟨r2, hr2, h1, h2, h3, h4⟩
      · rw [h]
      · have := hall r2 hr2 h2 _ h3
        simp only at h4
        omega
    unfold downloadMovie
    by_cases he : results.isEmpty
    · rw [if_pos he]
      exact ⟨⟨_, rfl⟩, rfl⟩
    · rw [if_neg he, if_pos hz]
      exact ⟨⟨_, rfl⟩, rfl⟩

def c10ResultsEx : List ScrapeResult :=
  [{ id := 1, statusResults := some "scraped", scrapedScore := some 3, infoHash := some "a" },
   { id := 2, statusResults := some "scraped", scrapedScore := some 5, infoHash := some "b" },
   { id := 3, statusResults := some "download_failed", scrapedScore := some 9, infoHash := some "c" }]

def c10ZeroEx : List ScrapeResult :=
  [{ id := 4, statusResults := some "scraped", scrapedScore := some 0, infoHash := some "d" }]

/-- Witness for c10_download_movie_selection: on a concrete result list the
maximal positively scored scraped result is picked, and on a list whose
only scraped result scores zero the downloader errors with no effects. -/
theorem c10_download_movie_selection_witness :
    ({ id := 2, statusResults := some "scraped", scrapedScore := some 5,
       infoHash := some "b" } : ScrapeResult) ∈ c10ResultsEx ∧
    (∃ msg, (downloadMovie c10ZeroEx).1 = Except.error msg) ∧
    (downloadMovie c10ZeroEx).2 = [] := by
  have hz : ∀ t ∈ c10ZeroEx, t.statusResults.getD "" = "scraped" →
      ∀ v, t.scrapedScore = some v → v ≤ 0 := by
    intro t ht hel v hv
    simp only [c10ZeroEx, List.mem_singleton] at ht
    subst ht
    simp at hv
    omega
  exact ⟨((c10_download_movie_selection c10ResultsEx).1 _ 5 (by decide)).1,
    ((c10_download_movie_selection c10ZeroEx).2 hz).1,
    ((c10_download_movie_selection c10ZeroEx).2 hz).2⟩

/-! C2: season-pack policy. -/

def tvCfgEx : ScrapingConfig :=
  { scoring := { resolutionScores := fun r => if r = "2160p" then 5000
                   else if r = "1080p" then 4000 else 0,
                 codecScores := fun _ => 0, maxSeederScore := 0, preferredUploaderScore := 0,
                 languageIncludeScore := 0, languageExcludePenalty := 0, maxSizeScore := 1000 },
    languages := { includeLangs := [], excludeLangs := [] },
    filesize := { movie := { min := 1, max := 10, sizeUnit := "GB" },
                  tvShow := { min := 1, max := 20, sizeUnit := "GB" } },
    preferredUploaders := [] }

def tvS1 : Stream := { title := "Show.Name S01E01 1080p", infoHash := "h1" }
def tvS2 : Stream := { title := "Show.Name S01E02 1080p", infoHash := "h2" }
def tvS3 : Stream := { title := "Show.Name S01E03 1080p", infoHash := "h3" }
def tvPack : Stream := { title := "Show.Name Season1 complete3 2160p", infoHash := "hp" }
def tvEp (i : Nat) : Episode :=
  { id := i, seasonId := 1, episodeNumber := i, airDate := some 0, scraped := false }
def tvItemEx : WatchlistItem := { id := 42, mediaType := some "tv" }

/-- Claim C2 counterexample.  A fully aired three-episode season (air dates
in the past at scrape time 100) whose stream list holds one candidate that
parses as a season pack for that season (season 1, episode count 3) with
the top score 5000, against per-episode candidates scoring 4000: the TV
scraping path still scrapes every episode individually, creating three
distinct scrape results from the per-episode candidates; the season pack
is never selected and no single shared scrape result is applied. -/
theorem c2_season_pack_counterexample :
    ([tvEp 1, tvEp 2, tvEp 3].all (fun e => !airDateFuture 100 e)) = true ∧
    (parseAndScore tvCfgEx tvPack).parsedInfo.season = 1 ∧
    (parseAndScore tvCfgEx tvPack).parsedInfo.episodeCount = 3 ∧
    (parseAndScore tvCfgEx tvPack).score = 5000 ∧
    (scrapeTVShowRun tvCfgEx tvItemEx 100 [tvS1, tvS2, tvS3, tvPack]
        [(1, tvEp 1), (1, tvEp 2), (1, tvEp 3)] 1).2.map (fun r => r.scrapedScore)
      = [some 4000, some 4000, some 4000] ∧
    (scrapeTVShowRun tvCfgEx tvItemEx 100 [tvS1, tvS2, tvS3, tvPack]
        [(1, tvEp 1), (1, tvEp 2), (1, tvEp 3)] 1).2.map (fun r => r.infoHash)
      = [some "h1", some "h2", some "h3"] ∧
    (scrapeTVShowRun tvCfgEx tvItemEx 100 [tvS1, tvS2, tvS3, tvPack]
        [(1, tvEp 1), (1, tvEp 2), (1, tvEp 3)] 1).1.map (fun e => e.scrapeResultId)
      = [some 1, some 2, some 3] := by
  decide

/-- Claim C2 as amended: the season-pack helpers, when invoked, behave as
the claim describes — filterSeasonPackStreams returns only streams whose
parsed season and episode count match the season, its head (when present)
is a highest-scoring such pack, and processSeasonPack writes one scrape
result carrying the pack and points every episode of the season at that
same single result, marking each scraped — but the active TV scraping
path (scrapeTVShowRun) never invokes them, scraping each aired unscraped
episode individually, as the counterexample shows. -/
theorem c2_season_pack_helpers (streams : List Stream) (sn cnt : Nat)
    (p : Stream) (tl : List Stream)
    (hp : filterSeasonPackStreams streams sn cnt = p :: tl)
    (item : WatchlistItem) (episodes : List Episode) (nextId : Nat) :
    p.parsedInfo.season = sn ∧ p.parsedInfo.episodeCount = cnt ∧ p ∈ streams ∧
    (∀ t ∈ streams, t.parsedInfo.season = sn → t.parsedInfo.episodeCount = cnt →
      t.score ≤ p.score) ∧
    (processSeasonPack p item episodes nextId).1.id = nextId ∧
    (processSeasonPack p item episodes nextId).1.infoHash = some p.infoHash ∧
    (processSeasonPack p item episodes nextId).2.length = episodes.length ∧
    (∀ e ∈ (processSeasonPack p item episodes nextId).2,
      e.scrapeResultId = some nextId ∧ e.scraped = true) := by
  have hpm : p ∈ streams.filter (fun s =>
      decide (s.parsedInfo.season = sn) && decide (s.parsedInfo.episodeCount = cnt)) :=
    sortByR_head_mem scoreDesc hp
  have hpf := List.mem_filter.mp hpm
  have hpq : p.parsedInfo.season = sn ∧ p.parsedInfo.episodeCount = cnt := by
    have := hpf.2
    simp only [Bool.and_eq_true, decide_eq_true_eq] at this
    exact this
  refine ⟨hpq.1, hpq.2, hpf.1, ?_, rfl, rfl, by simp [processSeasonPack], ?_⟩
  · intro t ht h1 h2
    have htf : t ∈ streams.filter (fun s =>
        decide (s.parsedInfo.season = sn) && decide (s.parsedInfo.episodeCount = cnt)) := by
      refine List.mem_filter.mpr ⟨ht, ?_⟩
      simp [h1, h2]
    have := sortByR_head_rel scoreDesc scoreDesc_trans scoreDesc_total scoreDesc_refl hp t htf
    simpa [scoreDesc] using this
  · intro e he
    simp only [processSeasonPack, List.mem_map] at he
    rcases he with ⟨x, hx, rfl⟩
    exact ⟨rfl, rfl⟩

/-- Witness for c2_season_pack_helpers on a concrete invocation: the pack
stream tvPack (parsed) is the selected head and the three episodes all end
up scraped and pointing at result id 9. -/
theorem c2_season_pack_helpers_witness :
    (parseAndScore tvCfgEx tvPack).parsedInfo.season = 1 ∧
    (processSeasonPack (parseAndScore tvCfgEx tvPack) tvItemEx
        [tvEp 1, tvEp 2, tvEp 3] 9).2.length = [tvEp 1, tvEp 2, tvEp 3].length ∧
    (processSeasonPack (parseAndScore tvCfgEx tvPack) tvItemEx
        [tvEp 1, tvEp 2, tvEp 3] 9).1.infoHash = some (parseAndScore tvCfgEx tvPack).infoHash := by
  have h := c2_season_pack_helpers
    [parseAndScore tvCfgEx tvS1, parseAndScore tvCfgEx tvPack] 1 3
    (parseAndScore tvCfgEx tvPack) []
    (by decide)
    tvItemEx [tvEp 1, tvEp 2, tvEp 3] 9
  exact ⟨h.1, h.2.2.2.2.2.2.1, h.2.2.2.2.2.1⟩

/-! C1: size-proximity tiering. -/

def rankCfgEx : ScrapingConfig :=
  { scoring := { resolutionScores := fun r => if r = "2160p" then 5000
                   else if r = "1080p" then 4000 else 0,
                 codecScores := fun _ => 0, maxSeederScore := 100, preferredUploaderScore := 0,
                 languageIncludeScore := 300, languageExcludePenalty := -500,
                 maxSizeScore := 1000 },
    languages := { includeLangs := ["EN"], excludeLangs := ["FR"] },
    filesize := { movie := { min := 1, max := 10, sizeUnit := "GB" },
                  tvShow := { min := 1, max := 20, sizeUnit := "GB" } },
    preferredUploaders := [] }

def movieItemEx : WatchlistItem := { id := 5, mediaType := some "movie" }

def c1ShowmanEx : Stream :=
  { title := "The.Greatest.Showman 2160p", infoHash := "sm1",
    metaLine := { fileSize := .val 15 "GB" } }

theorem sizeDesc_trans (a b c : Stream) (h1 : sizeDesc a b = true) (h2 : sizeDesc b c = true) :
    sizeDesc a c = true := by
  simp only [sizeDesc, decide_eq_true_eq] at *
  exact le_trans h2 h1

theorem sizeDesc_total (a b : Stream) : sizeDesc a b = true ∨ sizeDesc b a = true := by
  simp only [sizeDesc, decide_eq_true_eq]
  exact le_total (convertToGB b.parsedInfo.fileSize) (convertToGB a.parsedInfo.fileSize)

theorem assignSizeScores_length (ms : ℚ) (m : Nat) :
    ∀ (l : List Stream) (k : Nat), (assignSizeScores ms m l k).length = l.length := by
  intro l
  induction l with
  | nil => intro k; rfl
  | cons s rest ih =>
    intro k
    unfold assignSizeScores
    by_cases h : (qualifiesB ms s && decide (k < 3)) = true
    · rw [if_pos h]
      simp [ih]
    · rw [if_neg h]
      simp [ih]

/-- Pointwise characterization of the bonus assignment: walking the list
with k bonuses already handed out, position i receives the tier bonus for
rank k + (number of qualifying streams before i) when it qualifies and
fewer than three bonuses are used up by then, and keeps its size score
unchanged otherwise. -/
theorem assignSizeScores_getElem (ms : ℚ) (m : Nat) :
    ∀ (l : List Stream) (k i : Nat) (s0 : Stream), l[i]? = some s0 →
      (assignSizeScores ms m l k)[i]? = some (setSizeScore s0
        (if qualifiesB ms s0 = true ∧ k + rankQual ms l i < 3
         then (tierBonus m (k + rankQual ms l i) : Int)
         else s0.parsedInfo.sizeScore)) := by
  intro l
  induction l with
  | nil => intro k i s0 h; simp at h
  | cons s rest ih =>
    intro k i s0 h
    cases i with
    | zero =>
      simp only [List.getElem?_cons_zero, Option.some.injEq] at h
      subst h
      have hrank : rankQual ms (s :: rest) 0 = 0 := rfl
      rw [hrank]
      unfold assignSizeScores
      by_cases hq : qualifiesB ms s = true
      · by_cases hk : k < 3
        · rw [if_pos (by simp [hq, hk])]
          simp only [List.getElem?_cons_zero, Option.some.injEq]
          rw [if_pos ⟨hq, by omega⟩]
          rfl
        · rw [if_neg (by simp [hk])]
          simp only [List.getElem?_cons_zero, Option.some.injEq]
          rw [if_neg (by omega)]
          rfl
      · rw [if_neg (by simp [hq])]
        simp only [List.getElem?_cons_zero, Option.some.injEq]
        rw [if_neg (fun hc => hq hc.1)]
        rfl
    | succ i =>
      simp only [List.getElem?_cons_succ] at h
      have hrank : rankQual ms (s :: rest) (i + 1)
          = (if qualifiesB ms s then 1 else 0) + rankQual ms rest i := rfl
      rw [hrank]
      unfold assignSizeScores
      by_cases hq : qualifiesB ms s = true
      · by_cases hk : k < 3
        · rw [if_pos (by simp [hq, hk])]
          simp only [List.getElem?_cons_succ]
          have harith : k + ((if qualifiesB ms s then 1 else 0) + rankQual ms rest i)
              = (k + 1) + rankQual ms rest i := by
            rw [if_pos hq]; omega
          rw [harith]
          exact ih (k + 1) i s0 h
        · rw [if_neg (by simp [hk])]
          simp only [List.getElem?_cons_succ]
          have hbig : ¬ (qualifiesB ms s0 = true
              ∧ k + ((if qualifiesB ms s then 1 else 0) + rankQual ms rest i) < 3) := by
            intro hc; omega
          rw [if_neg hbig]
          have := ih k i s0 h
          rw [if_neg (by intro hc; omega :
            ¬ (qualifiesB ms s0 = true ∧ k + rankQual ms rest i < 3))] at this
          exact this
      · rw [if_neg (by simp [hq])]
        simp only [List.getElem?_cons_succ]
        have harith : k + ((if qualifiesB ms s then 1 else 0) + rankQual ms rest i)
            = k + rankQual ms rest i := by
          simp [hq]
        rw [harith]
        exact ih k i s0 h

/-- Parametric tiering lemma: for any size threshold ms and bonus constant
m, after the size-descending sort exactly the first three streams at or
under ms receive 100, 80 and 60 percent of m (in that order) and every
other stream a size bonus of zero. -/
theorem sizeTieringParam (l : List Stream) (ms : ℚ) (m : Nat) :
    ((sortByR sizeDesc l).Pairwise (fun a b =>
      convertToGB b.parsedInfo.fileSize ≤ convertToGB a.parsedInfo.fileSize)) ∧
    (∀ (i : Nat) (s0 : Stream),
      ((sortByR sizeDesc l).map resetSizeScore)[i]? = some s0 →
      (assignSizeScores ms m ((sortByR sizeDesc l).map resetSizeScore) 0)[i]? =
        some (setSizeScore s0
          (if convertToGB s0.parsedInfo.fileSize ≤ ms
              ∧ rankQual ms ((sortByR sizeDesc l).map resetSizeScore) i < 3
           then (tierBonus m (rankQual ms ((sortByR sizeDesc l).map resetSizeScore) i) : Int)
           else 0))) := by
  constructor
  · have := pairwise_sortByR sizeDesc sizeDesc_trans sizeDesc_total l
    exact this.imp (fun h => by simpa [sizeDesc] using h)
  · intro i s0 hi
    have hz : s0.parsedInfo.sizeScore = 0 := by
      rw [List.getElem?_map] at hi
      cases hx : (sortByR sizeDesc l)[i]? with
      | none => rw [hx] at hi; simp at hi
      | some x =>
        rw [hx] at hi
        have hxs : resetSizeScore x = s0 := by simpa using hi
        rw [← hxs]
        rfl
    have hget := assignSizeScores_getElem ms m ((sortByR sizeDesc l).map resetSizeScore) 0 i s0 hi
    simp only [Nat.zero_add] at hget
    rw [hget]
    refine congrArg (fun v => some (setSizeScore s0 v)) ?_
    rw [hz]
    exact if_congr (by simp [qualifiesB]) rfl rfl

/-- Claim C1 counterexample.  The bonus threshold is not the configured max
for the media kind: processStreams (which only the movie Scrape path
reaches, so this is a movie candidate list) picks the show max whenever
the title of the first size-sorted stream contains the word show.  A
movie release titled with Showman, sized 15 GB — over the 10 GB movie
max — is therefore tiered against the 20 GB show max and receives the
full 1000 bonus, where the claim demands a bonus of zero. -/
theorem c1_media_kind_counterexample :
    movieItemEx.mediaType = some "movie" ∧
    rankCfgEx.filesize.movie.max = 10 ∧
    rankCfgEx.filesize.tvShow.max = 20 ∧
    convertToGB (parseAndScore rankCfgEx c1ShowmanEx).parsedInfo.fileSize = 15 ∧
    ¬ ((15 : ℚ) ≤ (10 : ℚ)) ∧
    strContains (lowerStr c1ShowmanEx.title) "show" = true ∧
    getMaxSizeFor rankCfgEx
        ((sortByR sizeDesc ([c1ShowmanEx].map (parseAndScore rankCfgEx))).map resetSizeScore)
      = rankCfgEx.filesize.tvShow.max ∧
    (processStreamsPipeline rankCfgEx [c1ShowmanEx]).map (fun s => s.parsedInfo.sizeScore)
      = [1000] := by
  decide

/-- Claim C1 as amended: after sorting by parsed size in GB descending,
exactly the first three streams whose size is at or under the max size
the code selects — the configured show max when the first sorted stream
title contains the word show, the configured movie max otherwise,
regardless of the media kind — receive 100, 80 and 60 percent of the
configured max-size-score, in order of closeness to the max, and every
other stream receives a size bonus of zero. -/
theorem c1_size_tiering (cfg : ScrapingConfig) (l : List Stream) :
    ((sortByR sizeDesc l).Pairwise (fun a b =>
      convertToGB b.parsedInfo.fileSize ≤ convertToGB a.parsedInfo.fileSize)) ∧
    (∀ (i : Nat) (s0 : Stream),
      ((sortByR sizeDesc l).map resetSizeScore)[i]? = some s0 →
      (assignSizeScores (getMaxSizeFor cfg ((sortByR sizeDesc l).map resetSizeScore))
          cfg.scoring.maxSizeScore ((sortByR sizeDesc l).map resetSizeScore) 0)[i]? =
        some (setSizeScore s0
          (if convertToGB s0.parsedInfo.fileSize
               ≤ getMaxSizeFor cfg ((sortByR sizeDesc l).map resetSizeScore)
              ∧ rankQual (getMaxSizeFor cfg ((sortByR sizeDesc l).map resetSizeScore))
                  ((sortByR sizeDesc l).map resetSizeScore) i < 3
           then (tierBonus cfg.scoring.maxSizeScore
                  (rankQual (getMaxSizeFor cfg ((sortByR sizeDesc l).map resetSizeScore))
                    ((sortByR sizeDesc l).map resetSizeScore) i) : Int)
           else 0))) :=
  sizeTieringParam l (getMaxSizeFor cfg ((sortByR sizeDesc l).map resetSizeScore))
    cfg.scoring.maxSizeScore

def c1StreamEx (v : ℚ) (h : String) : Stream :=
  { infoHash := h, parsedInfo := { fileSize := .val v "GB" } }

def halfGB19 : ℚ := Rat.normalize 19 2 (by decide)

def c1ListEx : List Stream :=
  [c1StreamEx 3 "a", c1StreamEx halfGB19 "b", c1StreamEx 9 "c", c1StreamEx 8 "d"]

/-- Witness for c1_size_tiering: sizes 9.5, 9.0, 8.0, 3.0 GB, titles free
of the word show (so the selected max is the movie max 10 GB), with
max-size-score 1000, receive bonuses 1000, 800, 600, 0. -/
theorem c1_size_tiering_witness :
    (∃ s, (assignSizeScores
          (getMaxSizeFor rankCfgEx ((sortByR sizeDesc c1ListEx).map resetSizeScore))
          1000 ((sortByR sizeDesc c1ListEx).map resetSizeScore) 0)[0]?
        = some s ∧ s.parsedInfo.sizeScore = 1000) ∧
    (∃ s, (assignSizeScores
          (getMaxSizeFor rankCfgEx ((sortByR sizeDesc c1ListEx).map resetSizeScore))
          1000 ((sortByR sizeDesc c1ListEx).map resetSizeScore) 0)[1]?
        = some s ∧ s.parsedInfo.sizeScore = 800) ∧
    (∃ s, (assignSizeScores
          (getMaxSizeFor rankCfgEx ((sortByR sizeDesc c1ListEx).map resetSizeScore))
          1000 ((sortByR sizeDesc c1ListEx).map resetSizeScore) 0)[2]?
        = some s ∧ s.parsedInfo.sizeScore = 600) ∧
    (∃ s, (assignSizeScores
          (getMaxSizeFor rankCfgEx ((sortByR sizeDesc c1ListEx).map resetSizeScore))
          1000 ((sortByR sizeDesc c1ListEx).map resetSizeScore) 0)[3]?
        = some s ∧ s.parsedInfo.sizeScore = 0) := by
  obtain ⟨hs, hget⟩ := c1_size_tiering rankCfgEx c1ListEx
  exact ⟨⟨_, hget 0 (c1StreamEx halfGB19 "b") (by decide), by decide⟩,
    ⟨_, hget 1 (c1StreamEx 9 "c") (by decide), by decide⟩,
    ⟨_, hget 2 (c1StreamEx 8 "d") (by decide), by decide⟩,
    ⟨_, hget 3 (c1StreamEx 3 "a") (by decide), by decide⟩⟩

/-! C4, C5, C8, C9: further ranking-engine properties. -/

theorem processStreamsPipeline_length (cfg : ScrapingConfig) (l : List Stream) :
    (processStreamsPipeline cfg l).length = l.length := by
  unfold processStreamsPipeline
  simp [assignSizeScores_length, length_sortByR]

theorem processStreamsSelect_of_ne_nil (cfg : ScrapingConfig) (item : WatchlistItem)
    {streams : List Stream} (h : streams ≠ []) :
    processStreamsSelect cfg item streams
      = selectFromProcessed cfg item (processStreamsPipeline cfg streams) := by
  cases streams with
  | nil => exact absurd rfl h
  | cons a t => rfl

/-- Claim C4: when the size filter removes every stream of a non-empty
processed list, processStreams falls back to the unfiltered list and still
selects a best-scoring stream and saves a scrape result instead of
failing. -/
theorem c4_filter_fallback (cfg : ScrapingConfig) (item : WatchlistItem)
    (streams : List Stream) (hne : streams ≠ [])
    (hemp : filterStreams cfg item (processStreamsPipeline cfg streams) true false = []) :
    ∃ s, processStreamsSelect cfg item streams = some s ∧
      s ∈ processStreamsPipeline cfg streams ∧
      (∀ t ∈ processStreamsPipeline cfg streams, t.score ≤ s.score) ∧
      processStreamsRun cfg item streams = some (mkMovieScrapeResult item s) := by
  have hfof : filterOrFallback cfg item (processStreamsPipeline cfg streams)
      = processStreamsPipeline cfg streams := by
    unfold filterOrFallback
    rw [hemp, filterStreams_no_filters]
    simp
  cases hsort : sortByR scoreDesc (filterOrFallback cfg item (processStreamsPipeline cfg streams))
    with
  | nil =>
    exfalso
    have hl := length_sortByR scoreDesc (filterOrFallback cfg item
      (processStreamsPipeline cfg streams))
    rw [hsort, hfof, processStreamsPipeline_length] at hl
    exact hne (List.length_eq_zero.mp hl.symm)
  | cons a tl =>
    have hsel : processStreamsSelect cfg item streams = some a := by
      rw [processStreamsSelect_of_ne_nil cfg item hne]
      unfold selectFromProcessed
      rw [hsort]
      rfl
    refine ⟨a, hsel, ?_, ?_, ?_⟩
    · have := sortByR_head_mem scoreDesc hsort
      rwa [hfof] at this
    · intro t ht
      have := sortByR_head_rel scoreDesc scoreDesc_trans scoreDesc_total scoreDesc_refl hsort t
        (by rwa [hfof])
      simpa [scoreDesc] using this
    · unfold processStreamsRun
      rw [hsel]
      rfl

def c4S1 : Stream :=
  { title := "Movie.A 2160p", infoHash := "m1", metaLine := { fileSize := .val 50 "GB" } }
def c4S2 : Stream :=
  { title := "Movie.B 1080p", infoHash := "m2", metaLine := { fileSize := .val 20 "GB" } }

/-- Witness for c4_filter_fallback: both candidates (50 GB and 20 GB) are
outside the 1 to 10 GB movie range, yet a best-scoring stream is selected
and a scrape result saved. -/
theorem c4_filter_fallback_witness :
    ∃ s, processStreamsSelect rankCfgEx movieItemEx [c4S1, c4S2] = some s ∧
      s ∈ processStreamsPipeline rankCfgEx [c4S1, c4S2] ∧
      (∀ t ∈ processStreamsPipeline rankCfgEx [c4S1, c4S2], t.score ≤ s.score) ∧
      processStreamsRun rankCfgEx movieItemEx [c4S1, c4S2]
        = some (mkMovieScrapeResult movieItemEx s) :=
  c4_filter_fallback rankCfgEx movieItemEx [c4S1, c4S2] (by decide) (by decide)

theorem assignSizeScores_raw_mem (ms : ℚ) (m : Nat) :
    ∀ (l : List Stream) (k : Nat) (s : Stream),
      s ∈ assignSizeScores ms m l k → ∃ y ∈ l, rawOf s = rawOf y := by
  intro l
  induction l with
  | nil => intro k s h; simp [assignSizeScores] at h
  | cons y rest ih =>
    intro k s h
    unfold assignSizeScores at h
    by_cases hc : (qualifiesB ms y && decide (k < 3)) = true
    · rw [if_pos hc] at h
      rcases List.mem_cons.mp h with rfl | h2
      · exact ⟨y, List.mem_cons_self y rest, rfl⟩
      · rcases ih (k + 1) s h2 with ⟨z, hz, hr⟩
        exact ⟨z, List.mem_cons_of_mem y hz, hr⟩
    · rw [if_neg hc] at h
      rcases List.mem_cons.mp h with rfl | h2
      · exact ⟨s, List.mem_cons_self s rest, rfl⟩
      · rcases ih k s h2 with ⟨z, hz, hr⟩
        exact ⟨z, List.mem_cons_of_mem y hz, hr⟩

set_option maxHeartbeats 1000000 in
/-- The ranking pipeline only reorders and rescores: every output stream
carries the raw fields of some input stream. -/
theorem mem_pipeline_raw (cfg : ScrapingConfig) {l : List Stream} {s : Stream}
    (h : s ∈ processStreamsPipeline cfg l) : ∃ y ∈ l, rawOf s = rawOf y := by
  unfold processStreamsPipeline at h
  rcases List.mem_map.mp h with ⟨x, hx, rfl⟩
  rcases assignSizeScores_raw_mem _ _ _ _ _ hx with ⟨y1, hy1, hr1⟩
  rcases List.mem_map.mp hy1 with ⟨y2, hy2, rfl⟩
  rcases List.mem_map.mp ((mem_sortByR sizeDesc).mp hy2) with ⟨z, hz, rfl⟩
  exact ⟨z, hz, hr1⟩

/-- Claim C5: after a previously selected hash is blacklisted, the next
scrape run never selects a stream with that hash, the selection scores at
least as high as everything the engine ranks, and — whenever the whole
remaining processed set passes the size filter — it is a highest-scoring
stream among all remaining candidates. -/
theorem c5_blacklist_reselection (cfg : ScrapingConfig) (item : WatchlistItem)
    (existingHash : String) (streams : List Stream) (s : Stream)
    (hsel : scrapeMovieSelect cfg item existingHash streams = some s) :
    s.infoHash ≠ existingHash ∧
    (∀ t ∈ filterOrFallback cfg item (processStreamsPipeline cfg
        (streams.filter (fun x => decide (x.infoHash ≠ existingHash)))), t.score ≤ s.score) ∧
    (filterStreams cfg item (processStreamsPipeline cfg
          (streams.filter (fun x => decide (x.infoHash ≠ existingHash)))) true false
        = processStreamsPipeline cfg (streams.filter (fun x => decide (x.infoHash ≠ existingHash)))
      → ∀ t ∈ processStreamsPipeline cfg
          (streams.filter (fun x => decide (x.infoHash ≠ existingHash))),
          t.score ≤ s.score) := by
  unfold scrapeMovieSelect at hsel
  have hsel2 := processStreamsSelect_eq hsel
  obtain ⟨hmem, hmax⟩ := selectFromProcessed_spec hsel2
  have hsP := mem_of_mem_filterOrFallback hmem
  obtain ⟨y, hy, hraw⟩ := mem_pipeline_raw cfg hsP
  have hyh : y.infoHash ≠ existingHash := by
    have := (List.mem_filter.mp hy).2
    simpa using this
  have hhash : s.infoHash = y.infoHash := congrArg RawStream.infoHash hraw
  refine ⟨by rw [hhash]; exact hyh, hmax, ?_⟩
  intro hfull t ht
  have hfof : filterOrFallback cfg item (processStreamsPipeline cfg
      (streams.filter (fun x => decide (x.infoHash ≠ existingHash))))
      = processStreamsPipeline cfg
        (streams.filter (fun x => decide (x.infoHash ≠ existingHash))) := by
    unfold filterOrFallback
    rw [hfull, filterStreams_no_filters]
    simp
  exact hmax t (by rwa [hfof])

def c5S1 : Stream :=
  { title := "Movie.C 2160p", infoHash := "oldhash", metaLine := { fileSize := .val 5 "GB" } }
def c5S2 : Stream :=
  { title := "Movie.C 1080p", infoHash := "newhash", metaLine := { fileSize := .val 5 "GB" } }

/-- Witness for c5_blacklist_reselection: with the higher-scoring candidate
blacklisted, the scrape run picks a stream whose hash differs from the
blacklisted one. -/
theorem c5_blacklist_reselection_witness :
    ∃ s, scrapeMovieSelect rankCfgEx movieItemEx "oldhash" [c5S1, c5S2] = some s ∧
      s.infoHash ≠ "oldhash" := by
  obtain ⟨s, hsel⟩ : ∃ s, scrapeMovieSelect rankCfgEx movieItemEx "oldhash" [c5S1, c5S2]
      = some s := by
    cases h : scrapeMovieSelect rankCfgEx movieItemEx "oldhash" [c5S1, c5S2] with
    | none => exact absurd h (by decide)
    | some s => exact ⟨s, rfl⟩
  exact ⟨s, hsel,
    (c5_blacklist_reselection rankCfgEx movieItemEx "oldhash" [c5S1, c5S2] s hsel).1⟩

theorem parseAndScore_raw_congr (cfg : ScrapingConfig) {a b : Stream}
    (h : rawOf a = rawOf b) : parseAndScore cfg a = parseAndScore cfg b := by
  cases a; cases b
  simp only [rawOf, RawStream.mk.injEq] at h
  obtain ⟨h1, h2, h3, h4, h5, h6⟩ := h
  subst h1 h2 h3 h4 h5 h6
  rfl

theorem map_parseAndScore_congr (cfg : ScrapingConfig) :
    ∀ {l1 l2 : List Stream}, l1.map rawOf = l2.map rawOf →
      l1.map (parseAndScore cfg) = l2.map (parseAndScore cfg) := by
  intro l1
  induction l1 with
  | nil =>
    intro l2 h
    cases l2 with
    | nil => rfl
    | cons b t2 => simp at h
  | cons a t1 ih =>
    intro l2 h
    cases l2 with
    | nil => simp at h
    | cons b t2 =>
      simp only [List.map_cons, List.cons.injEq] at h
      simp only [List.map_cons, List.cons.injEq]
      exact ⟨parseAndScore_raw_congr cfg h.1, ih h.2⟩

/-- Claim C8: the ranking selection and its score are a function of the raw
candidate fields alone (the engine overwrites every parsed field and
score before using them), so re-running the engine on an unchanged
candidate list — whatever its mutable parsed info and score fields hold
after a previous run — yields the same selected candidate, the same total
score, and the same saved scrape result. -/
theorem c8_ranking_deterministic (cfg : ScrapingConfig) (item : WatchlistItem)
    (l1 l2 : List Stream) (h : l1.map rawOf = l2.map rawOf) :
    processStreamsSelect cfg item l1 = processStreamsSelect cfg item l2 ∧
    (processStreamsSelect cfg item l1).map (fun s => s.score)
      = (processStreamsSelect cfg item l2).map (fun s => s.score) ∧
    processStreamsRun cfg item l1 = processStreamsRun cfg item l2 := by
  have hpipe : processStreamsPipeline cfg l1 = processStreamsPipeline cfg l2 := by
    unfold processStreamsPipeline
    rw [map_parseAndScore_congr cfg h]
  have hsel : processStreamsSelect cfg item l1 = processStreamsSelect cfg item l2 := by
    cases l1 with
    | nil =>
      cases l2 with
      | nil => rfl
      | cons b t2 => simp at h
    | cons a t1 =>
      cases l2 with
      | nil => simp at h
      | cons b t2 =>
        show selectFromProcessed cfg item (processStreamsPipeline cfg (a :: t1))
          = selectFromProcessed cfg item (processStreamsPipeline cfg (b :: t2))
        rw [hpipe]
  exact ⟨hsel, by rw [hsel], by unfold processStreamsRun; rw [hsel]⟩

def c8Raw : Stream :=
  { title := "Movie.D 1080p", infoHash := "d1", metaLine := { fileSize := .val 5 "GB" } }
def c8Junk : Stream :=
  { title := "Movie.D 1080p", infoHash := "d1", metaLine := { fileSize := .val 5 "GB" },
    parsedInfo := { resolution := "2160p", sizeScore := 999 }, score := 123456 }

/-- Witness for c8_ranking_deterministic: stale parsed info and a stale
score on the input stream do not change the selection. -/
theorem c8_ranking_deterministic_witness :
    processStreamsSelect rankCfgEx movieItemEx [c8Junk]
      = processStreamsSelect rankCfgEx movieItemEx [c8Raw] :=
  (c8_ranking_deterministic rankCfgEx movieItemEx [c8Junk] [c8Raw] (by decide)).1

/-- Claim C9: an unparsable file-size string converts to 0 GB; a validated
configuration has strictly positive minimum sizes for both media kinds,
so a stream with an unparsable size never survives the active size filter
(for either media kind and with or without the uploader filter) and can
only be selected on the unfiltered fallback path — its selection forces
the size-filtered set to be empty. -/
theorem c9_unparsable_size (cfg : ScrapingConfig)
    (hv : validateFilesizeConfig cfg.filesize = none)
    (s : Stream) (hs : s.parsedInfo.fileSize = SizeStr.empty) :
    convertToGB s.parsedInfo.fileSize = 0 ∧
    (0 < cfg.filesize.movie.min ∧ 0 < cfg.filesize.tvShow.min) ∧
    (∀ (item : WatchlistItem) (L : List Stream) (u : Bool),
      s ∉ filterStreams cfg item L true u) ∧
    (∀ (item : WatchlistItem) (L : List Stream),
      selectFromProcessed cfg item L = some s → filterStreams cfg item L true false = []) := by
  have hmins : 0 < cfg.filesize.movie.min ∧ 0 < cfg.filesize.tvShow.min := by
    unfold validateFilesizeConfig at hv
    split_ifs at hv with h1 h2 h3 h4 h5 h6
    exact ⟨not_le.mp h2, not_le.mp h5⟩
  have hzero : convertToGB s.parsedInfo.fileSize = 0 := by rw [hs]; rfl
  have hnot : ∀ (item : WatchlistItem) (L : List Stream) (u : Bool),
      s ∉ filterStreams cfg item L true u := by
    intro item L u hmem
    have hcond := (List.mem_filter.mp hmem).2
    simp only [if_true, Bool.and_eq_true, decide_eq_true_eq] at hcond
    have hle := hcond.1.1
    rw [hzero] at hle
    by_cases hm : item.mediaType = some "show"
    · rw [if_pos hm] at hle
      exact absurd hle (not_le.mpr hmins.2)
    · rw [if_neg hm] at hle
      exact absurd hle (not_le.mpr hmins.1)
  have hfall : ∀ (item : WatchlistItem) (L : List Stream),
      selectFromProcessed cfg item L = some s → filterStreams cfg item L true false = [] := by
    intro item L hselL
    by_contra hne2
    obtain ⟨hmem, _⟩ := selectFromProcessed_spec hselL
    unfold filterOrFallback at hmem
    rw [if_neg (by simpa [List.isEmpty_iff] using hne2)] at hmem
    exact hnot item L false hmem
  exact ⟨hzero, hmins, hnot, hfall⟩

def c9Bad : Stream := { title := "Movie.E 1080p", infoHash := "e1" }

/-- Witness for c9_unparsable_size: with the validated example
configuration, the size-less stream converts to 0 GB, and since it is the
selection of its singleton list, the size-filtered set is empty. -/
theorem c9_unparsable_size_witness :
    convertToGB c9Bad.parsedInfo.fileSize = 0 ∧
    filterStreams rankCfgEx movieItemEx [c9Bad] true false = [] := by
  have h := c9_unparsable_size rankCfgEx (by decide) c9Bad (by decide)
  exact ⟨h.1, h.2.2.2 movieItemEx [c9Bad] (by decide)⟩

end MyeR
